import Mathlib

/-!
# Verification of the sales-discovery conversation engine

Shallow embedding of the core of the `sales-discovery-bot` repository:

* `src/agent/state.py`   — `BusinessInfo`, `MVPProposal`, `ConversationState`
* `src/agent/prompts.py` — `QUESTION_PROMPTS`
* `src/agent/tools.py`   — `extract_business_info`, `generate_mvp_proposal`,
                           `determine_partnership_tier`
* `src/agent/logic.py`   — the LangGraph stage machine (`_build_graph`, the six
                           stage nodes, `_should_continue_understanding`,
                           `process_message`)

The LLM (`ChatAnthropic.ainvoke`) and the JSON-plus-pydantic parsing layer are
external effects; they are modelled as explicit oracle parameters
(`Oracle`, and `String → Option _` parse functions), so every run of the
engine is a pure function of the oracle and the inputs.

LangGraph execution semantics used by the embedding (the graph in
`_build_graph` is compiled with a checkpointer but with **no**
`interrupt_before`/`interrupt_after` and no dynamic interrupts):

* an `ainvoke` starts at the entry point (`understand`) and keeps executing
  nodes along the (conditional) edges until `END`, bounded only by the
  default `recursion_limit` of 25 supersteps;
* a node's effect on the state is exactly the dict it **returns**: the
  `messages` channel appends (the `add_messages` reducer), every other
  channel is overwritten.  In-place mutation of the state dict passed to a
  node is *not* a channel write — this matters for `logic.py:86`, where
  `_understand_business` stores the extraction result by mutating its local
  `state` dict and does not return it, so the `business_info` channel never
  changes;
* a later `ainvoke` on a thread whose previous run reached `END` starts a
  fresh run from the entry point, over the checkpointed channel values with
  the new input (the user message) appended to `messages` first.
-/

namespace SalesBot

/-- Message roles stored in the transcript (`HumanMessage` / `AIMessage`).
`SystemMessage` is only ever sent to the LLM, never stored. -/
inductive Role where
  | human
  | ai
  deriving Repr, DecidableEq

/-- A transcript entry (a LangChain message: role plus text content). -/
structure Msg where
  role : Role
  content : String
  deriving Repr, DecidableEq

/-- Model of `BusinessInfo` (src/agent/state.py:11-17): pydantic model with optional
scalar fields and list fields defaulting to `[]`.  `team_size` is an `int`
in the source, modelled as `Int`. -/
structure BusinessInfo where
  business_type : Option String := none
  team_size : Option Int := none
  biggest_challenge : Option String := none
  time_wasters : List String := []
  current_tools : List String := []
  deriving Repr, DecidableEq

/-- Value of `BusinessInfo()` with every field at its pydantic default. -/
def BusinessInfo.default : BusinessInfo := {}

/-- Model of `MVPProposal` (src/agent/state.py:20-27); `delivery_time` has the
pydantic default `"2-3 weeks"`. -/
structure MVPProposal where
  agent_name : String
  description : String
  time_saved : String
  integrations : List String
  success_metric : String
  delivery_time : String := "2-3 weeks"
  deriving Repr, DecidableEq

/-- The `stage` literal type of `ConversationState` (src/agent/state.py:40-49). -/
inductive Stage where
  | start
  | understand
  | identify
  | scope
  | propose
  | recommend
  | book
  | complete
  deriving Repr, DecidableEq

/-- Position of a stage in the fixed order
`start < understand < identify < scope < propose < recommend < book < complete`. -/
def Stage.idx : Stage → Nat
  | .start => 0
  | .understand => 1
  | .identify => 2
  | .scope => 3
  | .propose => 4
  | .recommend => 5
  | .book => 6
  | .complete => 7

/-- Model of `ConversationState` (src/agent/state.py:30-60).  `business_info` is a
`Dict[str, Any]` in the source; every read of it in the engine goes through
`dict.get` with the `BusinessInfo` field names, so it is modelled by the
`BusinessInfo` record (the initial `{}` behaves like the all-default
record under those reads).  `started_at` is a wall-clock timestamp, opaque
to the logic, modelled as `Nat`.  `source` is modelled as `String`. -/
structure ConversationState where
  messages : List Msg
  conversation_id : String
  source : String
  stage : Stage
  business_info : BusinessInfo
  identified_task : Option String := none
  mvp_proposal : Option MVPProposal := none
  partnership_tier : Option String := none
  questions_asked : Nat
  started_at : Nat := 0
  calendly_shown : Bool
  deriving Repr, DecidableEq

/-- Python truthiness of an `Optional[str]`: `None` and `""` are falsy. -/
def truthyStr : Option String → Bool
  | some s => !(s == "")
  | none => false

/-- Python `x or default` for an `Optional[str] x`: falls back on `None`
and on the empty string. -/
def pyStrOr (x : Option String) (dflt : String) : String :=
  match x with
  | some s => if s == "" then dflt else s
  | none => dflt

/-- Model of `determine_partnership_tier` (src/agent/tools.py:102-116).
`business_info.get("team_size", 0) or 0` maps a missing or `None`
`team_size` (and a literal 0) to 0; the `mvp_proposal` argument is taken
but unused, exactly as in the source. -/
def determine_partnership_tier (business_info : BusinessInfo)
    (_mvp_proposal : Option MVPProposal) : String :=
  let team_size : Int := business_info.team_size.getD 0
  if team_size > 50 then "enterprise"
  else if team_size > 15 || business_info.time_wasters.length > 3 then "growth"
  else "starter"

/-- Tier decision table transcribed from the spec (§4.4), for comparison
with `determine_partnership_tier`: rules evaluated in order, first match
wins; a missing or null `team_size` is treated as 0. -/
def tierPolicySpec (business_info : BusinessInfo) : String :=
  let team_size : Int := match business_info.team_size with
    | some n => n
    | none => 0
  if team_size > 50 then "enterprise"
  else if team_size > 15 ∨ business_info.time_wasters.length > 3 then "growth"
  else "starter"

/-- Value of `QUESTION_PROMPTS["understand"]` (src/agent/prompts.py:25-29). -/
def understandQuestions : List String :=
  ["What does your business do and what\x27s your biggest operational challenge?",
   "How many people are on your team and what takes up most of their time?",
   "What manual process frustrates you the most?"]

/-- Value of `QUESTION_PROMPTS["scope"]` (src/agent/prompts.py:31-35); the first
template contains the `{task}` placeholder. -/
def scopeQuestions : List String :=
  ["Walk me through the current process for \x7btask\x7d. What are the inputs and outputs?",
   "What tools or systems does this process interact with?",
   "How do you measure success for this task currently?"]

/-- Value of `QUESTION_PROMPTS["calendly"]` (src/agent/prompts.py:36), with the
`{calendly_url}` placeholder still in place. -/
def calendlyTemplate : String :=
  "Perfect! The next step is to book a 30-minute demo where I\x27ll show you exactly how this will work: \x7bcalendly_url\x7d"

/-- Splits a character list at the first occurrence of `needle`:
`some (before, after)` with the occurrence removed, `none` when `needle`
does not occur.  Structural recursion, so it evaluates inside the kernel
(`String.splitOn` does not, being defined by well-founded recursion). -/
def breakOnAux (needle : List Char) : List Char → Option (List Char × List Char)
  | [] => if needle.isEmpty then some ([], []) else none
  | c :: rest =>
    if needle.isPrefixOf (c :: rest) then some ([], (c :: rest).drop needle.length)
    else
      match breakOnAux needle rest with
      | some (pre, post) => some (c :: pre, post)
      | none => none

/-- Python `s.split(sep)` for a non-empty `sep`, on character lists:
split at each non-overlapping occurrence, left to right.  `fuel` only
serves structural termination; `length + 1` is always enough because each
removed occurrence is non-empty. -/
def splitOnCharsFuel (needle : List Char) : Nat → List Char → List (List Char)
  | 0, s => [s]
  | fuel + 1, s =>
    match breakOnAux needle s with
    | none => [s]
    | some (pre, post) => pre :: splitOnCharsFuel needle fuel post

/-- Python `s.split(sep)` for a non-empty `sep`, on strings. -/
def splitOnStr (needle s : String) : List String :=
  (splitOnCharsFuel needle.data (s.data.length + 1) s.data).map String.mk

/-- Python `sep.join(parts)`. -/
def pyJoin (sep : String) : List String → String
  | [] => ""
  | [a] => a
  | a :: rest => a ++ sep ++ pyJoin sep rest

/-- Python `str.format` restricted to a single named field: every
occurrence of the placeholder in the template is replaced by `arg`
(the replacement text itself is not re-scanned, as in `str.format`). -/
def formatField (placeholder : String) (template arg : String) : String :=
  pyJoin arg (splitOnStr placeholder template)

/-- Python `needle in s` for a non-empty needle. -/
def containsSub (needle s : String) : Bool :=
  (breakOnAux needle.data s.data).isSome

/-- The fenced-code-block unwrap shared by `extract_business_info`
(src/agent/tools.py:39-43) and `generate_mvp_proposal`
(src/agent/tools.py:83-87): if the completion text contains a
```` ```json ```` marker take what stands between it and the next
```` ``` ````, else the same with a bare ```` ``` ```` marker, else the
whole text.  `(splitOnStr sep s).getD 1 ""` is Python `s.split(sep)[1]`,
total here because the guard ensures at least one separator occurrence. -/
def stripFence (s : String) : String :=
  if containsSub "```json" s then
    (splitOnStr "```" ((splitOnStr "```json" s).getD 1 "")).getD 0 ""
  else if containsSub "```" s then
    (splitOnStr "```" ((splitOnStr "```" s).getD 1 "")).getD 0 ""
  else s

/-- Model of `extract_business_info` (src/agent/tools.py:11-49), as a function of
the completion text it received for the extraction prompt.  `parse`
models `json.loads` followed by `BusinessInfo(**data)` (pydantic
validation): `none` when either step raises.  The bare `except:` turns
any failure into `BusinessInfo()`. -/
def extract_business_info (parse : String → Option BusinessInfo)
    (completion : String) : BusinessInfo :=
  match parse ((stripFence completion).trim) with
  | some bi => bi
  | none => BusinessInfo.default

/-- The hard-coded fallback proposal of `generate_mvp_proposal`
(src/agent/tools.py:93-99); `delivery_time` is not passed and takes the
pydantic default. -/
def fallbackProposal : MVPProposal :=
  { agent_name := "Process Automation Assistant"
    description := "Automates your most time-consuming task with AI-powered intelligence."
    time_saved := "10+ hours/week"
    integrations := ["Email", "Spreadsheets"]
    success_metric := "90% reduction in manual processing time" }

/-- Model of `generate_mvp_proposal` (src/agent/tools.py:52-99), as a function of
the completion text; `parse` models `json.loads` + `MVPProposal(**data)`. -/
def generate_mvp_proposal (parse : String → Option MVPProposal)
    (completion : String) : MVPProposal :=
  match parse ((stripFence completion).trim) with
  | some p => p
  | none => fallbackProposal

/-- Oracle for the external effects of a stage step: the three completion
round trips (extraction prompt, identify prompt, proposal prompt — each a
deterministic function of the data the source interpolates into the
prompt) and the two `json.loads` + pydantic parses.  Fixing an oracle
makes every engine run a pure function. -/
structure Oracle where
  extractCompletion : List Msg → String
  identifyCompletion : List Msg → String
  proposalCompletion : List Msg → BusinessInfo → String → String
  parseBI : String → Option BusinessInfo
  parseMVP : String → Option MVPProposal

/-- The configuration fields the engine reads (src/agent/config.py):
tier prices and the Calendly URL. -/
structure Config where
  starter_price : Int := 1250
  growth_price : Int := 2500
  enterprise_price : Int := 5000
  calendly_url : String := "https://calendly.com/justin-erezcapital/30min"

/-- Model of `_understand_business` (src/agent/logic.py:76-99).  When the
transcript is non-empty the node runs extraction, but the result is only
written into the node-local dict (`logic.py:86`), not returned, so the
`business_info` channel is unchanged; the extraction still counts as a
completion round trip (recorded in the step log, not here).  If fewer than
`len(QUESTION_PROMPTS["understand"]) = 3` questions were asked, append the
next canned question, increment `questions_asked` and stay in
`understand`; otherwise return only `{"stage": "identify"}`. -/
def understand_node (st : ConversationState) : ConversationState :=
  if st.questions_asked < understandQuestions.length then
    { st with
        messages := st.messages ++ [⟨.ai, understandQuestions.getD st.questions_asked ""⟩],
        questions_asked := st.questions_asked + 1,
        stage := .understand }
  else
    { st with stage := .identify }

/-- Model of `_should_continue_understanding` (src/agent/logic.py:101-118);
returns the literal route strings `"continue"` / `"next"`.  The two
`business_info.get(...)` reads are Python-truthy tests. -/
def should_continue_understanding (st : ConversationState) : String :=
  if st.questions_asked < 2 then "continue"
  else if truthyStr st.business_info.business_type &&
          truthyStr st.business_info.biggest_challenge then "next"
  else if st.questions_asked ≥ 3 then "next"
  else "continue"

/-- Model of `_identify_mvp` (src/agent/logic.py:120-133): one completion
round trip over the transcript (plus the system prompt and the identify
question, folded into the oracle), appended as an AI message. -/
def identify_node (o : Oracle) (st : ConversationState) : ConversationState :=
  { st with
      messages := st.messages ++ [⟨.ai, o.identifyCompletion st.messages⟩],
      stage := .identify }

/-- Content of the most recent `HumanMessage` in the transcript
(the reversed-iteration loop of src/agent/logic.py:138-142). -/
def lastHumanContent (messages : List Msg) : Option String :=
  (messages.reverse.find? (fun m => m.role == .human)).map (·.content)

/-- Model of `_scope_mvp` (src/agent/logic.py:135-158):
`identified_task = last_human_msg or "the process you mentioned"`
(Python truthiness, so an empty-string message also falls back), then the
three scope templates are `format`-ted with the task and joined with
newlines into one AI message. -/
def scope_node (st : ConversationState) : ConversationState :=
  let identified_task := pyStrOr (lastHumanContent st.messages) "the process you mentioned"
  let question :=
    pyJoin "\n"
      (scopeQuestions.map (fun q => formatField "\x7btask\x7d" q identified_task))
  { st with
      messages := st.messages ++ [⟨.ai, question⟩],
      identified_task := some identified_task,
      stage := .scope }

/-- The human-readable proposal template of `_create_proposal`
(src/agent/logic.py:171-180). -/
def formatProposal (p : MVPProposal) : String :=
  "\n🎉 **Here\x27s your MVP AI Agent proposal:**\n\n* 🎯 **Your First AI Agent:** "
    ++ p.agent_name ++ "\n* 📋 **What it does:** " ++ p.description
    ++ "\n* ⏰ **Time saved:** " ++ p.time_saved
    ++ "\n* 🔌 **Integrates with:** " ++ pyJoin ", " p.integrations
    ++ "\n* 📊 **Success metric:** " ++ p.success_metric
    ++ "\n* 🚀 **Delivery:** " ++ p.delivery_time ++ "\n"

/-- Model of `_create_proposal` (src/agent/logic.py:160-186): one
generation round trip through `generate_mvp_proposal`
(`state.get("identified_task", "")` is `getD ""`), the formatted proposal
appended as an AI message, and `mvp_proposal` set. -/
def propose_node (o : Oracle) (st : ConversationState) : ConversationState :=
  let proposal :=
    generate_mvp_proposal o.parseMVP
      (o.proposalCompletion st.messages st.business_info (st.identified_task.getD ""))
  { st with
      messages := st.messages ++ [⟨.ai, formatProposal proposal⟩],
      mvp_proposal := some proposal,
      stage := .propose }

/-- Templated tier blurbs of `_recommend_tier` (src/agent/logic.py:195-199),
keyed by the tier string. -/
def tierDetails (cfg : Config) (tier : String) : String :=
  if tier == "starter" then
    "**Starter Partnership** ($" ++ toString cfg.starter_price
      ++ "/month): Perfect for your first AI agent."
  else if tier == "growth" then
    "**Growth Partnership** ($" ++ toString cfg.growth_price
      ++ "/month): Ideal for expanding automation across multiple areas."
  else
    "**Enterprise Partnership** ($" ++ toString cfg.enterprise_price
      ++ "/month): Comprehensive AI transformation."

/-- Model of `_recommend_tier` (src/agent/logic.py:188-213): run the Tier
Policy (no completion round trip), append the templated recommendation,
set `partnership_tier`. -/
def recommend_node (cfg : Config) (st : ConversationState) : ConversationState :=
  let tier := determine_partnership_tier st.business_info st.mvp_proposal
  let agentName := match st.mvp_proposal with
    | some p => p.agent_name
    | none => "AI agent"
  let recommendation :=
    "\n💡 **Recommended Partnership:** " ++ tierDetails cfg tier
      ++ "\n\nThis gives you everything needed to deploy your " ++ agentName
      ++ " and see immediate ROI.\n\nReady to see this in action?\n"
  { st with
      messages := st.messages ++ [⟨.ai, recommendation⟩],
      partnership_tier := some tier,
      stage := .recommend }

/-- Model of `_book_demo` (src/agent/logic.py:215-225): append the Calendly
message, set `calendly_shown := true`, and set the stage directly to
`complete` (the literal `"book"` is never stored). -/
def book_node (cfg : Config) (st : ConversationState) : ConversationState :=
  { st with
      messages := st.messages ++
        [⟨.ai, formatField "\x7bcalendly_url\x7d" calendlyTemplate cfg.calendly_url⟩],
      calendly_shown := true,
      stage := .complete }

/-- One entry of the execution log of a graph run: the node that executed,
the channel state after its update was applied, and how many completion
round trips the node performed. -/
structure StepLog where
  node : String
  after : ConversationState
  llm : Nat
  deriving Repr, DecidableEq

/-- The `understand` self-loop of the compiled graph
(src/agent/logic.py:59-66): execute `understand`, then follow the
conditional edge; `"continue"` re-enters `understand`, `"next"` leaves the
loop.  `fuel` bounds the supersteps (LangGraph's `recursion_limit`); the
loop needs at most 3 iterations, so fuel 25 never runs out in an actual
run. -/
def understandLoop : Nat → ConversationState → ConversationState × List StepLog
  | 0, st => (st, [])
  | fuel + 1, st =>
    let st1 := understand_node st
    let log : StepLog := ⟨"understand", st1, if st.messages.isEmpty then 0 else 1⟩
    if should_continue_understanding st1 == "continue" then
      let r := understandLoop fuel st1
      (r.1, log :: r.2)
    else
      (st1, [log])

/-- One full `ainvoke` of the compiled graph (src/agent/logic.py:43-74):
from the entry point `understand`, through the conditional self-loop, then
the unconditional chain `identify → scope → propose → recommend → book →
END`.  Returns the final channel state and the step log. -/
def runGraph (o : Oracle) (cfg : Config) (st : ConversationState) :
    ConversationState × List StepLog :=
  let r0 := understandLoop 25 st
  let st1 := identify_node o r0.1
  let st2 := scope_node st1
  let st3 := propose_node o st2
  let st4 := recommend_node cfg st3
  let st5 := book_node cfg st4
  (st5, r0.2 ++
    [⟨"identify", st1, 1⟩, ⟨"scope", st2, 0⟩, ⟨"propose", st3, 1⟩,
     ⟨"recommend", st4, 0⟩, ⟨"book", st5, 0⟩])

/-- The fresh-conversation state initialized by `process_message`
(src/agent/logic.py:240-250): empty transcript, stage `start`, empty
`business_info`, zero questions, `calendly_shown = False`.  The incoming
user message is **not** part of it. -/
def initState (conversation_id source : String) : ConversationState :=
  { messages := []
    conversation_id := conversation_id
    source := source
    stage := .start
    business_info := BusinessInfo.default
    questions_asked := 0
    calendly_shown := false }

/-- Content of the last AI message of the transcript
(src/agent/logic.py:265-269). -/
def lastAiContent (messages : List Msg) : Option String :=
  (messages.reverse.find? (fun m => m.role == .ai)).map (·.content)

/-- The dict returned by `process_message` (src/agent/logic.py:271-276). -/
structure TurnResult where
  response : Option String
  stage : Stage
  conversation_id : String
  calendly_shown : Bool
  deriving Repr, DecidableEq

/-- Model of `process_message` (src/agent/logic.py:227-276), with the
checkpointer made explicit: `prior` is the checkpointed state for this
`conversation_id` (`none` when the thread is new).  A new thread is
initialized with `initState` — the `message` argument is dropped on this
path; an existing thread gets `message` appended as a `HumanMessage` and
the graph is re-invoked from its entry point.  Returns the final state,
the returned dict, and the step log of the run. -/
def process_message (o : Oracle) (cfg : Config) (prior : Option ConversationState)
    (conversation_id message source : String) :
    ConversationState × TurnResult × List StepLog :=
  let run :=
    match prior with
    | none => runGraph o cfg (initState conversation_id source)
    | some st => runGraph o cfg { st with messages := st.messages ++ [Msg.mk .human message] }
  (run.1,
   { response := lastAiContent run.1.messages
     stage := run.1.stage
     conversation_id := conversation_id
     calendly_shown := run.1.calendly_shown },
   run.2)

/-- Folding a sequence of further `process_message` calls (one per user
message) over an existing checkpointed state, concatenating the runs'
step logs. -/
def chainCalls (o : Oracle) (cfg : Config) (conversation_id source : String) :
    ConversationState → List String → ConversationState × List StepLog
  | st, [] => (st, [])
  | st, m :: ms =>
    let r := process_message o cfg (some st) conversation_id m source
    let rest := chainCalls o cfg conversation_id source r.1 ms
    (rest.1, r.2.2 ++ rest.2)

/-- States and step logs of a whole conversation: the first call (whose
user message is dropped by `process_message`), then one further call per
element of `laterMessages`.  Returns the final checkpointed state and the
concatenated step logs of all runs. -/
def conversation (o : Oracle) (cfg : Config) (conversation_id source : String)
    (laterMessages : List String) : ConversationState × List StepLog :=
  let first := process_message o cfg none conversation_id "" source
  let rest := chainCalls o cfg conversation_id source first.1 laterMessages
  (rest.1, first.2.2 ++ rest.2)

/-- Step logs of a whole conversation (see `conversation`). -/
def allSteps (o : Oracle) (cfg : Config) (conversation_id source : String)
    (laterMessages : List String) : List StepLog :=
  (conversation o cfg conversation_id source laterMessages).2

/-- Accumulator saying whether a `book` step has occurred, threaded over a
step log. -/
def seenBook : Bool → List StepLog → Bool
  | seen, [] => seen
  | seen, l :: tr => seenBook (seen || l.node == "book") tr

/-- Checks, along a step log, that `calendly_shown` after every step equals
"a `book` step has already occurred (this one included)", starting from
accumulator `seen`. -/
def calendlyMatchesBook : Bool → List StepLog → Bool
  | _, [] => true
  | seen, l :: tr =>
    let seen2 := seen || l.node == "book"
    (l.after.calendly_shown == seen2) && calendlyMatchesBook seen2 tr

/-- A concrete completion oracle on which every parse fails, used for the
closed evaluations of the engine (the stage flow does not depend on the
oracle, because the `business_info` channel never changes). -/
def demoOracle : Oracle :=
  { extractCompletion := fun _ => "no json here"
    identifyCompletion := fun _ => "The single task to automate is invoice processing."
    proposalCompletion := fun _ _ _ => "still not json"
    parseBI := fun _ => none
    parseMVP := fun _ => none }

/-- The default configuration (src/agent/config.py defaults). -/
def demoConfig : Config := {}

/-- Checkpointed state after the first `process_message` call of a fresh
conversation under `demoOracle`. -/
def demoFirstState : ConversationState :=
  (process_message demoOracle demoConfig none "c1" "hello" "api").1

/-- Step log of a second `process_message` call on `demoFirstState`
(a conversation that already reached `complete`). -/
def demoSecondTrace : List StepLog :=
  (process_message demoOracle demoConfig (some demoFirstState) "c1" "hi again" "api").2.2

/-- C2: the Tier Policy (`determine_partnership_tier`) is a deterministic
pure function of `business_info` equal to the spec's first-match decision
table (`tierPolicySpec`): `team_size > 50` yields enterprise, otherwise
`team_size > 15` or `count(time_wasters) > 3` yields growth, otherwise
starter; a missing or null `team_size` is treated as 0, and the four
concrete examples of the claim evaluate as stated.  (Determinism is by
construction: it is a function of its arguments only.) -/
theorem tier_policy_correct :
    (∀ (bi : BusinessInfo) (mvp : Option MVPProposal),
        determine_partnership_tier bi mvp = tierPolicySpec bi) ∧
    (∀ (bi : BusinessInfo) (mvp : Option MVPProposal),
        determine_partnership_tier { bi with team_size := none } mvp =
          determine_partnership_tier { bi with team_size := some 0 } mvp) ∧
    determine_partnership_tier { team_size := some 60 } none = "enterprise" ∧
    determine_partnership_tier { team_size := some 20, time_wasters := [] } none = "growth" ∧
    determine_partnership_tier
      { team_size := some 5, time_wasters := ["a", "b", "c", "d"] } none = "growth" ∧
    determine_partnership_tier { team_size := some 5, time_wasters := [] } none = "starter" := by
  refine ⟨?_, ?_, by decide, by decide, by decide, by decide⟩
  · intro bi mvp
    unfold determine_partnership_tier tierPolicySpec
    cases bi.team_size <;> simp [Option.getD]
  · intro bi mvp
    rfl

/-- C5: `extract_business_info` is total (never raises), and whenever the
completion text — after unwrapping an optional fenced code block and
stripping whitespace — fails JSON parsing or pydantic field validation
(the `parse` oracle returns `none`), it returns the `BusinessInfo` record
with every field at its default: `business_type`, `team_size`,
`biggest_challenge` absent and `time_wasters`, `current_tools` empty. -/
theorem extract_business_info_default_on_failure
    (parse : String → Option BusinessInfo) (completion : String)
    (h : parse ((stripFence completion).trim) = none) :
    extract_business_info parse completion = BusinessInfo.default ∧
    (extract_business_info parse completion).business_type = none ∧
    (extract_business_info parse completion).team_size = none ∧
    (extract_business_info parse completion).biggest_challenge = none ∧
    (extract_business_info parse completion).time_wasters = [] ∧
    (extract_business_info parse completion).current_tools = [] := by
  unfold extract_business_info
  rw [h]
  exact ⟨rfl, rfl, rfl, rfl, rfl, rfl⟩

/-- Witness for C5 at the concrete unparseable completion
`"Not valid JSON"` with an always-failing parse oracle. -/
theorem extract_business_info_default_on_failure_witness :
    (fun _ : String => (none : Option BusinessInfo))
        ((stripFence "Not valid JSON").trim) = none ∧
    (extract_business_info (fun _ => none) "Not valid JSON" = BusinessInfo.default ∧
     (extract_business_info (fun _ => none) "Not valid JSON").business_type = none ∧
     (extract_business_info (fun _ => none) "Not valid JSON").team_size = none ∧
     (extract_business_info (fun _ => none) "Not valid JSON").biggest_challenge = none ∧
     (extract_business_info (fun _ => none) "Not valid JSON").time_wasters = [] ∧
     (extract_business_info (fun _ => none) "Not valid JSON").current_tools = []) :=
  ⟨rfl, extract_business_info_default_on_failure (fun _ => none) "Not valid JSON" rfl⟩

/-- C6: `generate_mvp_proposal` is total (never raises), and whenever the
completion text fails to parse or validate it returns exactly the fixed
fallback record: agent_name "Process Automation Assistant", time_saved
"10+ hours/week", integrations ["Email", "Spreadsheets"], success_metric
"90% reduction in manual processing time", delivery_time "2-3 weeks" —
so the propose stage always has a proposal. -/
theorem generate_mvp_proposal_fallback_on_failure
    (parse : String → Option MVPProposal) (completion : String)
    (h : parse ((stripFence completion).trim) = none) :
    generate_mvp_proposal parse completion = fallbackProposal ∧
    (generate_mvp_proposal parse completion).agent_name = "Process Automation Assistant" ∧
    (generate_mvp_proposal parse completion).time_saved = "10+ hours/week" ∧
    (generate_mvp_proposal parse completion).integrations = ["Email", "Spreadsheets"] ∧
    (generate_mvp_proposal parse completion).success_metric =
      "90% reduction in manual processing time" ∧
    (generate_mvp_proposal parse completion).delivery_time = "2-3 weeks" := by
  unfold generate_mvp_proposal
  rw [h]
  exact ⟨rfl, rfl, rfl, rfl, rfl, rfl⟩

/-- Witness for C6 at the concrete unparseable completion
`"Invalid response"` with an always-failing parse oracle. -/
theorem generate_mvp_proposal_fallback_on_failure_witness :
    (fun _ : String => (none : Option MVPProposal))
        ((stripFence "Invalid response").trim) = none ∧
    (generate_mvp_proposal (fun _ => none) "Invalid response" = fallbackProposal ∧
     (generate_mvp_proposal (fun _ => none) "Invalid response").agent_name =
       "Process Automation Assistant" ∧
     (generate_mvp_proposal (fun _ => none) "Invalid response").time_saved = "10+ hours/week" ∧
     (generate_mvp_proposal (fun _ => none) "Invalid response").integrations =
       ["Email", "Spreadsheets"] ∧
     (generate_mvp_proposal (fun _ => none) "Invalid response").success_metric =
       "90% reduction in manual processing time" ∧
     (generate_mvp_proposal (fun _ => none) "Invalid response").delivery_time = "2-3 weeks") :=
  ⟨rfl, generate_mvp_proposal_fallback_on_failure (fun _ => none) "Invalid response" rfl⟩

/-! ## Engine invariant lemmas (loop, run, chain level) -/

theorem understand_node_calendly (st : ConversationState) :
    (understand_node st).calendly_shown = st.calendly_shown := by
  unfold understand_node
  split <;> rfl

theorem understand_node_questions (st : ConversationState) (h : st.questions_asked ≤ 3) :
    (understand_node st).questions_asked ≤ 3 := by
  unfold understand_node
  split
  next hlt =>
    show st.questions_asked + 1 ≤ 3
    have h3 : st.questions_asked < 3 := by simpa [understandQuestions] using hlt
    omega
  next =>
    show st.questions_asked ≤ 3
    exact h

/-- Unfolding of the self-loop when the router answers `"continue"`. -/
theorem understandLoop_succ_continue (n : Nat) (st : ConversationState)
    (hc : (should_continue_understanding (understand_node st) == "continue") = true) :
    understandLoop (n + 1) st =
      ((understandLoop n (understand_node st)).1,
        ⟨"understand", understand_node st, if st.messages.isEmpty then 0 else 1⟩ ::
          (understandLoop n (understand_node st)).2) := by
  simp [understandLoop, hc]

/-- Unfolding of the self-loop when the router leaves for `identify`. -/
theorem understandLoop_succ_next (n : Nat) (st : ConversationState)
    (hc : (should_continue_understanding (understand_node st) == "continue") = false) :
    understandLoop (n + 1) st =
      (understand_node st,
        [⟨"understand", understand_node st, if st.messages.isEmpty then 0 else 1⟩]) := by
  simp [understandLoop, hc]

theorem understand_node_messages (st : ConversationState) :
    ∃ suf : List Msg, (understand_node st).messages = st.messages ++ suf ∧
      ∀ m ∈ suf, m.role = .ai := by
  unfold understand_node
  split
  · exact ⟨_, rfl, by simp⟩
  · exact ⟨[], by simp, by simp⟩

theorem understandLoop_calendly (fuel : Nat) (st : ConversationState) :
    (understandLoop fuel st).1.calendly_shown = st.calendly_shown ∧
    ∀ l ∈ (understandLoop fuel st).2,
      l.node = "understand" ∧ l.after.calendly_shown = st.calendly_shown := by
  induction fuel generalizing st with
  | zero => simp [understandLoop]
  | succ n ih =>
    have hc := understand_node_calendly st
    cases hcont : should_continue_understanding (understand_node st) == "continue" with
    | true =>
      rw [understandLoop_succ_continue n st hcont]
      obtain ⟨ih1, ih2⟩ := ih (understand_node st)
      refine ⟨by rw [ih1, hc], ?_⟩
      intro l hl
      rcases List.mem_cons.mp hl with h | h
      · subst h
        exact ⟨rfl, hc⟩
      · obtain ⟨ha, hb⟩ := ih2 l h
        exact ⟨ha, by rw [hb, hc]⟩
    | false =>
      rw [understandLoop_succ_next n st hcont]
      refine ⟨hc, ?_⟩
      intro l hl
      rcases List.mem_cons.mp hl with h | h
      · subst h
        exact ⟨rfl, hc⟩
      · simp at h

theorem understandLoop_questions (fuel : Nat) (st : ConversationState)
    (h : st.questions_asked ≤ 3) :
    (understandLoop fuel st).1.questions_asked ≤ 3 ∧
    ∀ l ∈ (understandLoop fuel st).2, l.after.questions_asked ≤ 3 := by
  induction fuel generalizing st with
  | zero => simpa [understandLoop] using h
  | succ n ih =>
    have hq := understand_node_questions st h
    cases hcont : should_continue_understanding (understand_node st) == "continue" with
    | true =>
      rw [understandLoop_succ_continue n st hcont]
      obtain ⟨ih1, ih2⟩ := ih (understand_node st) hq
      refine ⟨ih1, ?_⟩
      intro l hl
      rcases List.mem_cons.mp hl with hh | hh
      · subst hh
        exact hq
      · exact ih2 l hh
    | false =>
      rw [understandLoop_succ_next n st hcont]
      refine ⟨hq, ?_⟩
      intro l hl
      rcases List.mem_cons.mp hl with hh | hh
      · subst hh
        exact hq
      · simp at hh

theorem understandLoop_messages (fuel : Nat) (st : ConversationState) :
    ∃ suf : List Msg, (understandLoop fuel st).1.messages = st.messages ++ suf ∧
      ∀ m ∈ suf, m.role = .ai := by
  induction fuel generalizing st with
  | zero => exact ⟨[], by simp [understandLoop], by simp⟩
  | succ n ih =>
    obtain ⟨suf1, he1, ha1⟩ := understand_node_messages st
    cases hcont : should_continue_understanding (understand_node st) == "continue" with
    | true =>
      rw [understandLoop_succ_continue n st hcont]
      obtain ⟨suf2, he2, ha2⟩ := ih (understand_node st)
      refine ⟨suf1 ++ suf2, ?_, ?_⟩
      · show (understandLoop n (understand_node st)).1.messages = _
        rw [he2, he1, List.append_assoc]
      · intro m hm
        rcases List.mem_append.mp hm with hh | hh
        · exact ha1 m hh
        · exact ha2 m hh
    | false =>
      rw [understandLoop_succ_next n st hcont]
      exact ⟨suf1, he1, ha1⟩

theorem runGraph_stage_complete (o : Oracle) (cfg : Config) (st : ConversationState) :
    (runGraph o cfg st).1.stage = .complete ∧
    (runGraph o cfg st).1.calendly_shown = true := ⟨rfl, rfl⟩

theorem runGraph_trace_ne_nil (o : Oracle) (cfg : Config) (st : ConversationState) :
    (runGraph o cfg st).2 ≠ [] := by
  unfold runGraph
  simp

theorem runGraph_questions (o : Oracle) (cfg : Config) (st : ConversationState)
    (h : st.questions_asked ≤ 3) :
    (runGraph o cfg st).1.questions_asked ≤ 3 ∧
    ∀ l ∈ (runGraph o cfg st).2, l.after.questions_asked ≤ 3 := by
  obtain ⟨h1, h2⟩ := understandLoop_questions 25 st h
  unfold runGraph
  refine ⟨h1, ?_⟩
  intro l hl
  rcases List.mem_append.mp hl with hh | hh
  · exact h2 l hh
  · simp only [List.mem_cons, List.not_mem_nil, or_false] at hh
    rcases hh with h | h | h | h | h <;> subst h <;> simpa using h1

/-- Transcript `new` extends transcript `old` by AI-authored messages only. -/
def aiExtends (old new : List Msg) : Prop :=
  ∃ suf : List Msg, new = old ++ suf ∧ ∀ m ∈ suf, m.role = .ai

theorem aiExtends_trans {a b c : List Msg} (h1 : aiExtends a b) (h2 : aiExtends b c) :
    aiExtends a c := by
  obtain ⟨s1, e1, r1⟩ := h1
  obtain ⟨s2, e2, r2⟩ := h2
  refine ⟨s1 ++ s2, by rw [e2, e1, List.append_assoc], ?_⟩
  intro m hm
  rcases List.mem_append.mp hm with hh | hh
  · exact r1 m hh
  · exact r2 m hh

theorem aiExtends_snoc (old : List Msg) (c : String) :
    aiExtends old (old ++ [⟨.ai, c⟩]) :=
  ⟨[⟨.ai, c⟩], rfl, by simp⟩

theorem runGraph_messages (o : Oracle) (cfg : Config) (st : ConversationState) :
    aiExtends st.messages (runGraph o cfg st).1.messages := by
  obtain ⟨suf0, he0, ha0⟩ := understandLoop_messages 25 st
  have h0 : aiExtends st.messages (understandLoop 25 st).1.messages := ⟨suf0, he0, ha0⟩
  set s0 := (understandLoop 25 st).1
  set s1 := identify_node o s0
  set s2 := scope_node s1
  set s3 := propose_node o s2
  set s4 := recommend_node cfg s3
  have h1 : aiExtends s0.messages s1.messages := aiExtends_snoc _ _
  have h2 : aiExtends s1.messages s2.messages := aiExtends_snoc _ _
  have h3 : aiExtends s2.messages s3.messages := aiExtends_snoc _ _
  have h4 : aiExtends s3.messages s4.messages := aiExtends_snoc _ _
  have h5 : aiExtends s4.messages (book_node cfg s4).messages := aiExtends_snoc _ _
  exact aiExtends_trans h0 (aiExtends_trans h1 (aiExtends_trans h2
    (aiExtends_trans h3 (aiExtends_trans h4 h5))))

theorem seenBook_true (tr : List StepLog) : seenBook true tr = true := by
  induction tr with
  | nil => rfl
  | cons l tr ih => simpa [seenBook] using ih

theorem seenBook_append (seen : Bool) (t1 t2 : List StepLog) :
    seenBook seen (t1 ++ t2) = seenBook (seenBook seen t1) t2 := by
  induction t1 generalizing seen with
  | nil => rfl
  | cons l tr ih => simp [seenBook, ih]

theorem calendlyMatchesBook_append (seen : Bool) (t1 t2 : List StepLog) :
    calendlyMatchesBook seen (t1 ++ t2) =
      (calendlyMatchesBook seen t1 && calendlyMatchesBook (seenBook seen t1) t2) := by
  induction t1 generalizing seen with
  | nil => simp [calendlyMatchesBook, seenBook]
  | cons l tr ih =>
    simp [calendlyMatchesBook, seenBook, ih, Bool.and_assoc]

theorem calendlyMatchesBook_constant (seen : Bool) (tr : List StepLog)
    (h : ∀ l ∈ tr, l.node = "understand" ∧ l.after.calendly_shown = seen) :
    calendlyMatchesBook seen tr = true ∧ seenBook seen tr = seen := by
  induction tr with
  | nil => exact ⟨rfl, rfl⟩
  | cons l tr ih =>
    obtain ⟨h1, h2⟩ := h l (by simp)
    obtain ⟨ih1, ih2⟩ := ih (fun x hx => h x (by simp [hx]))
    have hnb : (l.node == "book") = false := by
      rw [h1]
      rfl
    constructor
    · simp [calendlyMatchesBook, hnb, h2, ih1]
    · simp [seenBook, hnb, ih2]

theorem runGraph_calendly (o : Oracle) (cfg : Config) (st : ConversationState) :
    calendlyMatchesBook st.calendly_shown (runGraph o cfg st).2 = true ∧
    seenBook st.calendly_shown (runGraph o cfg st).2 = true := by
  obtain ⟨hfin, hall⟩ := understandLoop_calendly 25 st
  obtain ⟨hm, hs⟩ := calendlyMatchesBook_constant st.calendly_shown (understandLoop 25 st).2 hall
  unfold runGraph
  rw [calendlyMatchesBook_append, seenBook_append, hm, hs]
  constructor
  · simp only [Bool.true_and]
    simp [calendlyMatchesBook, seenBook, identify_node, scope_node, propose_node,
      recommend_node, book_node, hfin]
  · simp [seenBook]

theorem process_message_none_state (o : Oracle) (cfg : Config) (cid m src : String) :
    (process_message o cfg none cid m src).1 = (runGraph o cfg (initState cid src)).1 := rfl

theorem process_message_none_trace (o : Oracle) (cfg : Config) (cid m src : String) :
    (process_message o cfg none cid m src).2.2 = (runGraph o cfg (initState cid src)).2 := rfl

theorem process_message_some_state (o : Oracle) (cfg : Config) (st : ConversationState)
    (cid m src : String) :
    (process_message o cfg (some st) cid m src).1 =
      (runGraph o cfg { st with messages := st.messages ++ [Msg.mk .human m] }).1 := rfl

theorem process_message_some_trace (o : Oracle) (cfg : Config) (st : ConversationState)
    (cid m src : String) :
    (process_message o cfg (some st) cid m src).2.2 =
      (runGraph o cfg { st with messages := st.messages ++ [Msg.mk .human m] }).2 := rfl

theorem chainCalls_cons (o : Oracle) (cfg : Config) (cid src : String)
    (st : ConversationState) (m : String) (ms : List String) :
    chainCalls o cfg cid src st (m :: ms) =
      ((chainCalls o cfg cid src (process_message o cfg (some st) cid m src).1 ms).1,
       (process_message o cfg (some st) cid m src).2.2 ++
         (chainCalls o cfg cid src (process_message o cfg (some st) cid m src).1 ms).2) := rfl

theorem conversation_eq (o : Oracle) (cfg : Config) (cid src : String) (msgs : List String) :
    conversation o cfg cid src msgs =
      ((chainCalls o cfg cid src (process_message o cfg none cid "" src).1 msgs).1,
       (process_message o cfg none cid "" src).2.2 ++
         (chainCalls o cfg cid src (process_message o cfg none cid "" src).1 msgs).2) := rfl

theorem chainCalls_questions (o : Oracle) (cfg : Config) (cid src : String)
    (msgs : List String) (st : ConversationState) (h : st.questions_asked ≤ 3) :
    (chainCalls o cfg cid src st msgs).1.questions_asked ≤ 3 ∧
    ∀ l ∈ (chainCalls o cfg cid src st msgs).2, l.after.questions_asked ≤ 3 := by
  induction msgs generalizing st with
  | nil => exact ⟨h, by simp [chainCalls]⟩
  | cons m ms ih =>
    rw [chainCalls_cons]
    have hst2 : ({ st with messages := st.messages ++ [Msg.mk .human m] } :
        ConversationState).questions_asked ≤ 3 := h
    obtain ⟨hr1, hr2⟩ :=
      runGraph_questions o cfg { st with messages := st.messages ++ [Msg.mk .human m] } hst2
    obtain ⟨hc1, hc2⟩ := ih (process_message o cfg (some st) cid m src).1 hr1
    refine ⟨hc1, ?_⟩
    intro l hl
    rcases List.mem_append.mp hl with hh | hh
    · exact hr2 l hh
    · exact hc2 l hh

theorem runGraph_calendly_true (o : Oracle) (cfg : Config) (st : ConversationState)
    (h : st.calendly_shown = true) :
    calendlyMatchesBook true (runGraph o cfg st).2 = true ∧
    seenBook true (runGraph o cfg st).2 = true := by
  have hr := runGraph_calendly o cfg st
  rwa [h] at hr

theorem chainCalls_calendly (o : Oracle) (cfg : Config) (cid src : String)
    (msgs : List String) (st : ConversationState) (h : st.calendly_shown = true) :
    calendlyMatchesBook true (chainCalls o cfg cid src st msgs).2 = true := by
  induction msgs generalizing st with
  | nil => rfl
  | cons m ms ih =>
    rw [chainCalls_cons, calendlyMatchesBook_append]
    have hr := runGraph_calendly_true o cfg
      { st with messages := st.messages ++ [Msg.mk .human m] } h
    have hnext := ih (process_message o cfg (some st) cid m src).1
      ((runGraph_stage_complete o cfg { st with messages := st.messages ++ [Msg.mk .human m] }).2)
    rw [process_message_some_trace, hr.1, seenBook_true, hnext]
    rfl

theorem chainCalls_state_calendly (o : Oracle) (cfg : Config) (cid src : String)
    (msgs : List String) (st : ConversationState) (h : st.calendly_shown = true) :
    (chainCalls o cfg cid src st msgs).1.calendly_shown = true := by
  induction msgs generalizing st with
  | nil => exact h
  | cons m ms ih =>
    rw [chainCalls_cons]
    exact ih (process_message o cfg (some st) cid m src).1
      ((runGraph_stage_complete o cfg _).2)

end SalesBot

namespace SalesBot

/-- A conversation state whose transcript contains exactly one
human-authored message, with empty content. -/
def emptyHumanScopeState : ConversationState :=
  { messages := [Msg.mk .human ""]
    conversation_id := "c9"
    source := "api"
    stage := .identify
    business_info := BusinessInfo.default
    questions_asked := 3
    calendly_shown := false }

/-- C9 counterexample: on a transcript whose most recent human-authored
message exists but has empty content, `_scope_mvp` sets `identified_task`
to the placeholder, not to that message's content (`""`), because the
Python fallback `last_human_msg or "the process you mentioned"` tests
truthiness, and the empty string is falsy. -/
theorem scope_task_empty_message_counterexample :
    lastHumanContent emptyHumanScopeState.messages = some "" ∧
    (scope_node emptyHumanScopeState).identified_task = some "the process you mentioned" ∧
    (some "" : Option String) ≠ some "the process you mentioned" := by
  decide

/-- C9 amended: when the scope stage runs, `identified_task` is set to the
content of the most recent human-authored message if one exists *with
non-empty content*, and to the placeholder "the process you mentioned" if
no human message exists **or the most recent one is the empty string**
(`pyStrOr` is exactly this Python-truthiness fallback); the emitted agent
message is the three canned scoping questions, joined by newlines, with
that task interpolated into the first; the step is total, so it never
fails on a transcript without human messages. -/
theorem scope_node_task_and_questions (st : ConversationState) :
    (scope_node st).identified_task =
      some (pyStrOr (lastHumanContent st.messages) "the process you mentioned") ∧
    (∀ s, lastHumanContent st.messages = some s → s ≠ "" →
      (scope_node st).identified_task = some s) ∧
    (lastHumanContent st.messages = none →
      (scope_node st).identified_task = some "the process you mentioned") ∧
    (scope_node st).messages = st.messages ++
      [Msg.mk .ai
        ("Walk me through the current process for " ++
          pyStrOr (lastHumanContent st.messages) "the process you mentioned" ++
          ". What are the inputs and outputs?" ++ "\n" ++
          ("What tools or systems does this process interact with?" ++ "\n" ++
           "How do you measure success for this task currently?"))] ∧
    (scope_node st).stage = .scope := by
  refine ⟨rfl, ?_, ?_, rfl, rfl⟩
  · intro s hs hne
    unfold scope_node pyStrOr
    rw [hs]
    simp [hne]
  · intro hnone
    unfold scope_node pyStrOr
    rw [hnone]

/-- Witness for C9's amended theorem: the two conditional clauses
discharged on concrete transcripts (a non-empty human message, and a
transcript with no human message). -/
theorem scope_node_task_and_questions_witness :
    (lastHumanContent [Msg.mk .human "invoice processing"] = some "invoice processing" ∧
      "invoice processing" ≠ "" ∧
      (scope_node { emptyHumanScopeState with
          messages := [Msg.mk .human "invoice processing"] }).identified_task =
        some "invoice processing") ∧
    (lastHumanContent ([] : List Msg) = none ∧
      (scope_node { emptyHumanScopeState with messages := [] }).identified_task =
        some "the process you mentioned") :=
  ⟨⟨by decide, by decide,
    (scope_node_task_and_questions
      { emptyHumanScopeState with messages := [Msg.mk .human "invoice processing"] }).2.1
      "invoice processing" (by decide) (by decide)⟩,
   ⟨by decide,
    (scope_node_task_and_questions
      { emptyHumanScopeState with messages := [] }).2.2.1 (by decide)⟩⟩

/-- C1: for every conversation state, the router
`_should_continue_understanding` answers `"next"` (transition to
`identify`) exactly when at least 2 questions were asked and both
`business_type` and `biggest_challenge` are populated (Python-truthy), or
at least 3 questions were asked regardless of data completeness, and
answers `"continue"` (stay in `understand`) otherwise; consequently, over
every conversation (any oracle, any sequence of inbound messages),
`questions_asked` never exceeds 3 at any engine step. -/
theorem understand_advance_iff_and_questions_capped :
    (∀ st : ConversationState,
      should_continue_understanding st =
        (if (2 ≤ st.questions_asked ∧ truthyStr st.business_info.business_type = true ∧
              truthyStr st.business_info.biggest_challenge = true) ∨ 3 ≤ st.questions_asked
         then "next" else "continue")) ∧
    (∀ (cid src : String), (initState cid src).questions_asked ≤ 3) ∧
    (∀ (o : Oracle) (cfg : Config) (cid src : String) (msgs : List String),
      (allSteps o cfg cid src msgs).all
        (fun l => decide (l.after.questions_asked ≤ 3)) = true) := by
  refine ⟨?_, fun _ _ => Nat.zero_le 3, ?_⟩
  · intro st
    unfold should_continue_understanding
    by_cases hC : (2 ≤ st.questions_asked ∧
        truthyStr st.business_info.business_type = true ∧
        truthyStr st.business_info.biggest_challenge = true) ∨ 3 ≤ st.questions_asked
    · rw [if_pos hC]
      rcases hC with ⟨h2le, hb, hc⟩ | h3le
      · have h1 : ¬ st.questions_asked < 2 := by omega
        simp [h1, hb, hc]
      · have h1 : ¬ st.questions_asked < 2 := by omega
        cases hx : truthyStr st.business_info.business_type <;>
          cases hy : truthyStr st.business_info.biggest_challenge <;>
            simp [h1, hx, hy, h3le]
    · rw [if_neg hC]
      obtain ⟨hA, hB⟩ := not_or.mp hC
      by_cases h1 : st.questions_asked < 2
      · simp [h1]
      · have hq2 : 2 ≤ st.questions_asked := by omega
        cases hx : truthyStr st.business_info.business_type with
        | true =>
          cases hy : truthyStr st.business_info.biggest_challenge with
          | true => exact absurd ⟨hq2, hx, hy⟩ hA
          | false => simp [h1, hx, hy, hB]
        | false => simp [h1, hx, hB]
  · intro o cfg cid src msgs
    rw [List.all_eq_true]
    intro l hl
    rw [decide_eq_true_eq]
    rw [allSteps, conversation_eq] at hl
    have hinit : (initState cid src).questions_asked ≤ 3 := Nat.zero_le 3
    obtain ⟨hq1, hq2⟩ := runGraph_questions o cfg (initState cid src) hinit
    rcases List.mem_append.mp hl with hh | hh
    · exact hq2 l hh
    · obtain ⟨_, hc2⟩ := chainCalls_questions o cfg cid src msgs
        (process_message o cfg none cid "" src).1 hq1
      exact hc2 l hh

/-- C4: `calendly_shown` starts out false on a fresh conversation, and at
every engine step of every conversation its value equals "a `book` step
has already executed" — so it is false while the booking stage has not
yet run, becomes true exactly when the booking stage first runs, and
never reverts (the value transition false→true happens at most once). -/
theorem calendly_shown_tracks_booking :
    (∀ cid src : String, (initState cid src).calendly_shown = false) ∧
    (∀ (o : Oracle) (cfg : Config) (cid src : String) (msgs : List String),
      calendlyMatchesBook false (allSteps o cfg cid src msgs) = true) := by
  refine ⟨fun _ _ => rfl, ?_⟩
  intro o cfg cid src msgs
  rw [allSteps, conversation_eq]
  have hr := runGraph_calendly o cfg (initState cid src)
  have hinit : (initState cid src).calendly_shown = false := rfl
  rw [hinit] at hr
  rw [calendlyMatchesBook_append, process_message_none_trace, hr.1, hr.2]
  have hchain := chainCalls_calendly o cfg cid src msgs
    (process_message o cfg none cid "" src).1
    ((runGraph_stage_complete o cfg (initState cid src)).2)
  rw [hchain]
  rfl

/-- C10: a `process_message` call on a conversation_id with no prior state
initializes the conversation with an empty transcript and never appends
the incoming user message: with the oracle held fixed, the call's entire
result (final state, returned response / stage / calendly_shown, step
log) is the same for any two first-message texts, and every message in
the resulting transcript is AI-authored. -/
theorem first_turn_independent_of_message :
    (∀ cid src : String, (initState cid src).messages = []) ∧
    (∀ (o : Oracle) (cfg : Config) (cid src m m' : String),
      process_message o cfg none cid m src = process_message o cfg none cid m' src) ∧
    (∀ (o : Oracle) (cfg : Config) (cid src m : String),
      ((process_message o cfg none cid m src).1.messages.all
        (fun x => x.role == .ai)) = true) := by
  refine ⟨fun _ _ => rfl, fun _ _ _ _ _ _ => rfl, ?_⟩
  intro o cfg cid src m
  rw [List.all_eq_true]
  intro x hx
  obtain ⟨suf, he, ha⟩ := runGraph_messages o cfg (initState cid src)
  rw [process_message_none_state, he] at hx
  have hx2 : x ∈ suf := by simpa [initState] using hx
  rw [beq_iff_eq]
  exact ha x hx2

/-- C3 is refuted by the code: on the second `process_message` call of a
conversation that already reached stage `complete`, the graph restarts at
its entry point and the first executed step (`understand`, which returns
`{"stage": "identify"}`) writes stage `identify` — a regression from
`complete` under the fixed total order.  This theorem evaluates the
embedded engine at that failing input. -/
theorem stage_regresses_on_second_call :
    demoFirstState.stage = .complete ∧
    demoSecondTrace.map (fun l => l.after.stage) =
      [.identify, .identify, .scope, .propose, .recommend, .complete] ∧
    Stage.idx .identify < Stage.idx .complete := by
  decide

/-- C7 counterexample: calling `process_message` again on an
already-`complete` conversation re-executes every stage node
(`understand` through `book`), so "does not re-run any prior stage's
entry actions (no stage node executes again)" fails at this input. -/
theorem complete_rerun_counterexample :
    demoFirstState.stage = .complete ∧
    demoFirstState.calendly_shown = true ∧
    demoSecondTrace.map (fun l => l.node) =
      ["understand", "identify", "scope", "propose", "recommend", "book"] ∧
    demoSecondTrace ≠ [] := by
  decide

/-- C7 amended: invoking `process_message` again on a conversation whose
stage is already `complete` returns the same stage (`complete`) and
`calendly_shown = true`, but it does so by re-running the stage pipeline
from the graph's entry point — the step log of the call is non-empty. -/
theorem complete_conversation_rerun (o : Oracle) (cfg : Config) (st : ConversationState)
    (cid m src : String) (_h1 : st.stage = .complete) (_h2 : st.calendly_shown = true) :
    (process_message o cfg (some st) cid m src).2.1.stage = .complete ∧
    (process_message o cfg (some st) cid m src).2.1.calendly_shown = true ∧
    (process_message o cfg (some st) cid m src).2.2 ≠ [] :=
  ⟨(runGraph_stage_complete o cfg { st with messages := st.messages ++ [Msg.mk .human m] }).1,
   (runGraph_stage_complete o cfg { st with messages := st.messages ++ [Msg.mk .human m] }).2,
   runGraph_trace_ne_nil o cfg { st with messages := st.messages ++ [Msg.mk .human m] }⟩

/-- Witness for C7's amended theorem at the concrete completed
conversation `demoFirstState`. -/
theorem complete_conversation_rerun_witness :
    demoFirstState.stage = .complete ∧ demoFirstState.calendly_shown = true ∧
    ((process_message demoOracle demoConfig (some demoFirstState) "c1" "again" "api").2.1.stage
        = .complete ∧
     (process_message demoOracle demoConfig (some demoFirstState) "c1" "again" "api").2.1.calendly_shown
        = true ∧
     (process_message demoOracle demoConfig (some demoFirstState) "c1" "again" "api").2.2 ≠ []) :=
  ⟨by decide, by decide,
   complete_conversation_rerun demoOracle demoConfig demoFirstState "c1" "again" "api"
     (by decide) (by decide)⟩

/-- C8 is refuted by the code: the graph is compiled without interrupts,
so the single `process_message` call of a fresh conversation executes the
whole pipeline — eight stage steps across six distinct stages (the
`understand` self-loop runs three times, then `identify`, `scope`,
`propose`, `recommend`, `book`) — and performs four completion round
trips (two extractions, the identify prompt and the proposal generation),
not at most one step and at most two round trips.  This theorem evaluates
the embedded engine at that failing input. -/
theorem first_call_executes_whole_pipeline :
    (process_message demoOracle demoConfig none "c8" "first message" "api").2.2.map
        (fun l => l.node) =
      ["understand", "understand", "understand", "identify", "scope", "propose",
       "recommend", "book"] ∧
    ((process_message demoOracle demoConfig none "c8" "first message" "api").2.2.map
        (fun l => l.llm)).sum = 4 ∧
    (process_message demoOracle demoConfig none "c8" "first message" "api").2.1.stage
      = .complete := by
  decide

end SalesBot
